import Mathlib

/-!
Verification of the MLBStatsTracker statistics caching and aggregation engine
(src/app.py) against its specification.

The Python source is shallowly embedded below. Numeric behaviour is modelled
exactly: CPython floats are IEEE-754 binary64 values, represented here by
their exact rational value as a normalized significand/exponent pair (`FP`),
with correctly-rounded (round-half-to-even) arithmetic implemented over
unnormalized integer fractions (`Q`). String rendering models CPython
fixed-point formatting (`%.Nf`), which rounds the exact binary value
half-to-even at N decimals. The model covers the normal floating-point range
(no overflow/subnormal handling) and integers that convert exactly; every
concrete input considered lies well inside that range.
-/

/-- An unnormalized fraction n/d (d intended positive). -/
structure Q where
  n : ℤ
  d : ℕ
deriving DecidableEq, Repr

/-- An IEEE-754 binary64 value, exactly: the rational m * 2^e. Values
produced by rounding are normalized: m = 0 (with e = 0), or 2^52 ≤ |m| < 2^53. -/
structure FP where
  m : ℤ
  e : ℤ
deriving DecidableEq, Repr

def Q.ofFP (x : FP) : Q :=
  if 0 ≤ x.e then ⟨x.m * 2 ^ x.e.toNat, 1⟩ else ⟨x.m, 2 ^ (-x.e).toNat⟩

def Q.add (q r : Q) : Q := ⟨q.n * r.d + r.n * q.d, q.d * r.d⟩

def Q.mulPow10 (q : Q) (k : ℕ) : Q := ⟨q.n * 10 ^ k, q.d⟩

/-- q / r for r with nonzero value; junk if r.n = 0. -/
def Q.divQ (q r : Q) : Q :=
  if 0 ≤ r.n then ⟨q.n * r.d, q.d * r.n.toNat⟩ else ⟨-(q.n * r.d), q.d * (-r.n).toNat⟩

/-- q * 2^k (k : ℤ). -/
def Q.shift2 (q : Q) (k : ℤ) : Q :=
  if 0 ≤ k then ⟨q.n * 2 ^ k.toNat, q.d⟩ else ⟨q.n, q.d * 2 ^ (-k).toNat⟩

/-- Round to the nearest integer, ties to even (assumes d > 0). -/
def Q.rndHE (q : Q) : ℤ :=
  let f := q.n / (q.d : ℤ)
  let r2 := 2 * (q.n - f * q.d)
  if r2 < (q.d : ℤ) then f
  else if (q.d : ℤ) < r2 then f + 1
  else if f % 2 = 0 then f else f + 1

/-- Floor of log2 on ℕ, computed with explicit fuel (structural recursion,
so the kernel can evaluate it). -/
def log2fuel : ℕ → ℕ → ℕ
  | 0, _ => 0
  | fu + 1, n => if n ≤ 1 then 0 else log2fuel fu (n / 2) + 1

def natLog2 (n : ℕ) : ℕ := log2fuel n n

/-- Floor of log2 of a positive fraction. Junk if q ≤ 0. -/
def Q.flog2 (q : Q) : ℤ :=
  let a := q.n.toNat
  let b := q.d
  if b ≤ a then (natLog2 (a / b) : ℤ)
  else
    let k := natLog2 (b / a)
    if a * 2 ^ k = b then -(k : ℤ) else -(k : ℤ) - 1

/-- Round a positive fraction to the nearest binary64 (round half to even). -/
def Q.r2dPos (q : Q) : FP :=
  let e := q.flog2
  let m := (q.shift2 (52 - e)).rndHE
  if m = 2 ^ 53 then ⟨2 ^ 52, e - 51⟩ else ⟨m, e - 52⟩

/-- Round a fraction to the nearest binary64. -/
def Q.r2d (q : Q) : FP :=
  if q.n = 0 then ⟨0, 0⟩
  else if q.n < 0 then
    let p := Q.r2dPos ⟨-q.n, q.d⟩
    ⟨-p.m, p.e⟩
  else Q.r2dPos q

def FP.zero : FP := ⟨0, 0⟩

/-- Conversion of a Python int to float (exact for |n| < 2^53, else rounded). -/
def FP.ofInt (n : ℤ) : FP := Q.r2d ⟨n, 1⟩

/-- Float addition (correctly rounded). -/
def FP.add (x y : FP) : FP := ((Q.ofFP x).add (Q.ofFP y)).r2d

/-- Float division (correctly rounded; junk if y = 0). -/
def FP.divFP (x y : FP) : FP := ((Q.ofFP x).divQ (Q.ofFP y)).r2d

/-- Python true division a / b of two ints (correctly rounded; junk if b ≤ 0;
the source only divides by positive denominators, guarded by `> 0` checks). -/
def fdivZ (a b : ℤ) : FP := (Q.mk a b.toNat).r2d

/-- Exact rational value of a fraction (proof layer). -/
def Q.val (q : Q) : ℚ := (q.n : ℚ) / (q.d : ℚ)

/-- Exact rational value of a float (proof layer). -/
def FP.val (x : FP) : ℚ := (x.m : ℚ) * 2 ^ x.e

def padZeros (w : ℕ) (s : String) : String :=
  String.mk (List.replicate (w - s.length) '0') ++ s

def renderCore (dgts : ℕ) (m : ℕ) : String :=
  toString (m / 10 ^ dgts) ++ "." ++ padZeros dgts (toString (m % 10 ^ dgts))

def renderSigned (dgts : ℕ) (n : ℤ) : String :=
  if n < 0 then "-" ++ renderCore dgts (-n).toNat else renderCore dgts n.toNat

/-- CPython fixed-point formatting of a float at dgts decimals
(f-string "{x:.3f}" and friends): round the exact binary value half-to-even
at dgts decimals, always printing an integer digit before the point. -/
def FP.render (dgts : ℕ) (x : FP) : String :=
  renderSigned dgts (((Q.ofFP x).mulPow10 dgts).rndHE)

/-- The rounded 3-decimal numerator of a rendered float (proof layer). -/
def rend3 (x : FP) : ℤ := ((Q.ofFP x).mulPow10 3).rndHE

/-! ### The Python data layer: JSON-ish field values and dicts.

A stat record (a `['stat']` JSON object) is an association list from field
names to values. Values in scope are ints and strings; `dGet` is `dict.get`
with a default. -/

inductive PyVal where
  | int (n : ℤ)
  | str (s : String)
deriving DecidableEq, Repr

def StatDict := List (String × PyVal)
deriving DecidableEq, Repr

def dGet (d : StatDict) (key : String) (dflt : PyVal) : PyVal :=
  match List.lookup key d with
  | some v => v
  | none => dflt

def digitsToNat : List Char → Option ℕ
  | [] => some 0
  | c :: rest =>
    if c.isDigit then
      (digitsToNat rest).map (fun r => (c.toNat - '0'.toNat) * 10 ^ rest.length + r)
    else none

def digitsVal (l : List Char) : Option ℕ :=
  if l.isEmpty then none else digitsToNat l

/-- Python int(s) for a string: optional sign then decimal digits
(whitespace/underscore forms are out of the model's scope); None = ValueError. -/
def strToInt : String → Option ℤ
  | s =>
    match s.data with
    | '-' :: rest => (digitsVal rest).map (fun n => -(n : ℤ))
    | l => (digitsVal l).map (fun n => (n : ℤ))

/-- Python int(x): ints pass through, strings are parsed; None = raise. -/
def pyToInt : PyVal → Option ℤ
  | .int n => some n
  | .str s => strToInt s

/-- Python str(x). -/
def pyStr : PyVal → String
  | .int n => toString n
  | .str s => s

def splitDotAux : List Char → List Char → List (List Char)
  | [], cur => [cur.reverse]
  | c :: rest, cur =>
    if c = '.' then cur.reverse :: splitDotAux rest [] else splitDotAux rest (c :: cur)

/-- Split a string on the dot character (models str.split(".")). -/
def splitDot (l : List Char) : List (List Char) := splitDotAux l []

/-- Python float(s) for a decimal-literal string ([sign] digits [. digits],
at least one digit; exponent/inf/nan forms out of scope); None = ValueError. -/
def strToQ : String → Option Q :=
  fun s =>
    let core : List Char → Option Q := fun l =>
      match splitDot l with
      | [ip] => (digitsVal ip).map (fun n => ⟨(n : ℤ), 1⟩)
      | [ip, fp] =>
        if ip.isEmpty && fp.isEmpty then none
        else if ip.all Char.isDigit && fp.all Char.isDigit then
          match digitsToNat ip, digitsToNat fp with
          | some i, some f => some ⟨(i : ℤ) * 10 ^ fp.length + f, 10 ^ fp.length⟩
          | _, _ => none
        else none
      | _ => none
    match s.data with
    | '-' :: rest => (core rest).map (fun q => ⟨-q.n, q.d⟩)
    | l => core l

/-- Python float(x) on a field value. -/
def pyToFloat : PyVal → Option FP
  | .int n => some (FP.ofInt n)
  | .str s => (strToQ s).map Q.r2d

/-- Python truthiness of a field value (0 and "" are falsy). -/
def pyFalsy : PyVal → Bool
  | .int n => n = 0
  | .str s => s.isEmpty

/-! ### Derived stats structures (the dicts the aggregators return). -/

structure DerivedHittingStats where
  avg : String
  obp : String
  slg : String
  ops : String
  ab : ℤ
  h : ℤ
  hr : ℤ
  rbi : ℤ
  bb : ℤ
  so : ℤ
deriving DecidableEq, Repr

structure DerivedPitchingStats where
  era : String
  whip : String
  k : ℤ
  bb : ℤ
  ip : String
  h : ℤ
  hr : ℤ
  sv : ℤ
  gs : ℤ
  er : ℤ
deriving DecidableEq, Repr

/-- The `except`-branch default of _aggregate_hitting_stats / _format_hitting_stats. -/
def hittingOnError : DerivedHittingStats :=
  ⟨".000", ".000", ".000", ".000", 0, 0, 0, 0, 0, 0⟩

/-- The `except`-branch default of _aggregate_pitching_stats / _format_pitching_stats. -/
def pitchingOnError : DerivedPitchingStats :=
  ⟨"0.00", "0.00", 0, 0, "0.0", 0, 0, 0, 0, 0⟩

/-! ### The aggregators (_aggregate_hitting_stats, _aggregate_pitching_stats).

A game-log split is `Option StatDict`: the value of its 'stat' key, `none`
when the key is absent (`game.get('stat', {})` then yields the empty dict).
The Python loop body raises ValueError on the first unparseable field, the
surrounding try/except catches it and returns the all-zero default — modelled
by an Option-valued fold that collapses to `none` on the first parse failure. -/

structure HitTotals where
  at_bats : ℤ
  hits : ℤ
  home_runs : ℤ
  rbis : ℤ
  walks : ℤ
  strikeouts : ℤ
  total_bases : ℤ
deriving DecidableEq, Repr

/-- Componentwise addition of hitting totals. -/
def hitAdd (t d : HitTotals) : HitTotals :=
  ⟨t.at_bats + d.at_bats, t.hits + d.hits, t.home_runs + d.home_runs, t.rbis + d.rbis,
   t.walks + d.walks, t.strikeouts + d.strikeouts, t.total_bases + d.total_bases⟩

/-- Parse the seven hitting fields of one game (None on the first ValueError). -/
def parseHitGame (g : Option StatDict) : Option HitTotals := do
  let d := g.getD []
  let ab ← pyToInt (dGet d "atBats" (.int 0))
  let h ← pyToInt (dGet d "hits" (.int 0))
  let hrv ← pyToInt (dGet d "homeRuns" (.int 0))
  let rbiv ← pyToInt (dGet d "rbi" (.int 0))
  let bbv ← pyToInt (dGet d "baseOnBalls" (.int 0))
  let sov ← pyToInt (dGet d "strikeOuts" (.int 0))
  let tbv ← pyToInt (dGet d "totalBases" (.int 0))
  some ⟨ab, h, hrv, rbiv, bbv, sov, tbv⟩

/-- One iteration of the hitting totals loop: parse the game's fields and add
them to the running totals (integer sums, as in the source; an unparseable
field raises, discarding the whole window via the surrounding except). -/
def hitStep (t : HitTotals) (g : Option StatDict) : Option HitTotals :=
  (parseHitGame g).map (hitAdd t)

def hittingTotals (game_logs : List (Option StatDict)) : Option HitTotals :=
  game_logs.foldl (fun acc g => acc.bind (fun t => hitStep t g)) (some ⟨0, 0, 0, 0, 0, 0, 0⟩)

/-- avg = hits/at_bats if at_bats > 0 else 0 (the int 0 formats like the float). -/
def avgFP (t : HitTotals) : FP :=
  if 0 < t.at_bats then fdivZ t.hits t.at_bats else FP.zero

def obpFP (t : HitTotals) : FP :=
  if 0 < t.at_bats + t.walks then fdivZ (t.hits + t.walks) (t.at_bats + t.walks) else FP.zero

def slgFP (t : HitTotals) : FP :=
  if 0 < t.at_bats then fdivZ t.total_bases t.at_bats else FP.zero

def renderHitTotals (t : HitTotals) : DerivedHittingStats :=
  ⟨(avgFP t).render 3, (obpFP t).render 3, (slgFP t).render 3, ((obpFP t).add (slgFP t)).render 3,
   t.at_bats, t.hits, t.home_runs, t.rbis, t.walks, t.strikeouts⟩

/-- _aggregate_hitting_stats. -/
def aggregate_hitting_stats (game_logs : List (Option StatDict)) : DerivedHittingStats :=
  match hittingTotals game_logs with
  | none => hittingOnError
  | some t => renderHitTotals t

/-- The innings-pitched conversion inside _aggregate_pitching_stats:
if the string contains a dot, whole and third are parsed as ints and the
contribution is int(whole) + int(third)/3.0 (float arithmetic); otherwise
float(ip_str). None = ValueError (more or fewer than 2 dot-parts, bad digits). -/
def convertIP (s : String) : Option FP :=
  match splitDot s.data with
  | [_] => (strToQ s).map Q.r2d
  | [w, th] => do
    let wn ← strToInt (String.mk w)
    let tn ← strToInt (String.mk th)
    some ((FP.ofInt wn).add (fdivZ tn 3))
  | _ => none

structure PitchTotals where
  innings_pitched : FP
  hits : ℤ
  earned_runs : ℤ
  walks : ℤ
  strikeouts : ℤ
  home_runs : ℤ
  saves : ℤ
  games_started : ℤ
deriving DecidableEq, Repr

def pitchStep (t : PitchTotals) (g : Option StatDict) : Option PitchTotals := do
  let d := g.getD []
  let c ← convertIP (pyStr (dGet d "inningsPitched" (.str "0")))
  let h ← pyToInt (dGet d "hits" (.int 0))
  let er ← pyToInt (dGet d "earnedRuns" (.int 0))
  let bbv ← pyToInt (dGet d "baseOnBalls" (.int 0))
  let sov ← pyToInt (dGet d "strikeOuts" (.int 0))
  let hrv ← pyToInt (dGet d "homeRuns" (.int 0))
  let svv ← pyToInt (dGet d "saves" (.int 0))
  let gsv ← pyToInt (dGet d "gamesStarted" (.int 0))
  some ⟨t.innings_pitched.add c, t.hits + h, t.earned_runs + er, t.walks + bbv,
        t.strikeouts + sov, t.home_runs + hrv, t.saves + svv, t.games_started + gsv⟩

def pitchingTotals (game_logs : List (Option StatDict)) : Option PitchTotals :=
  game_logs.foldl (fun acc g => acc.bind (fun t => pitchStep t g))
    (some ⟨FP.zero, 0, 0, 0, 0, 0, 0, 0⟩)

def renderPitchTotals (t : PitchTotals) : DerivedPitchingStats :=
  let ipPos := (Q.ofFP t.innings_pitched).n
  let era := if 0 < ipPos then (FP.ofInt (t.earned_runs * 9)).divFP t.innings_pitched
             else FP.zero
  let whip := if 0 < ipPos then (FP.ofInt (t.walks + t.hits)).divFP t.innings_pitched
              else FP.zero
  ⟨era.render 2, whip.render 2, t.strikeouts, t.walks, t.innings_pitched.render 1,
   t.hits, t.home_runs, t.saves, t.games_started, t.earned_runs⟩

/-- _aggregate_pitching_stats. -/
def aggregate_pitching_stats (game_logs : List (Option StatDict)) : DerivedPitchingStats :=
  match pitchingTotals game_logs with
  | none => pitchingOnError
  | some t => renderPitchTotals t

/-! ### Season formatters (_format_hitting_stats, _format_pitching_stats). -/

/-- _format_hitting_stats. -/
def format_hitting_stats (d : StatDict) : DerivedHittingStats :=
  match (do
    let ab ← pyToInt (dGet d "atBats" (.int 0))
    let h ← pyToInt (dGet d "hits" (.int 0))
    let tb ← pyToInt (dGet d "totalBases" (.int 0))
    let bbv ← pyToInt (dGet d "baseOnBalls" (.int 0))
    let hrv ← pyToInt (dGet d "homeRuns" (.int 0))
    let rbiv ← pyToInt (dGet d "rbi" (.int 0))
    let sov ← pyToInt (dGet d "strikeOuts" (.int 0))
    some (ab, h, tb, bbv, hrv, rbiv, sov) : Option _) with
  | none => hittingOnError
  | some (ab, h, tb, bbv, hrv, rbiv, sov) =>
    let avg := if 0 < ab then fdivZ h ab else FP.zero
    let obp := if 0 < ab + bbv then fdivZ (h + bbv) (ab + bbv) else FP.zero
    let slg := if 0 < ab then fdivZ tb ab else FP.zero
    let ops := obp.add slg
    ⟨avg.render 3, obp.render 3, slg.render 3, ops.render 3, ab, h, hrv, rbiv, bbv, sov⟩

/-- _format_pitching_stats. -/
def format_pitching_stats (d : StatDict) : DerivedPitchingStats :=
  match (do
    let ipRaw := dGet d "inningsPitched" (.str "0")
    let ipv ← pyToFloat (if pyFalsy ipRaw then .str "0" else ipRaw)
    let h ← pyToInt (dGet d "hits" (.int 0))
    let er ← pyToInt (dGet d "earnedRuns" (.int 0))
    let bbv ← pyToInt (dGet d "baseOnBalls" (.int 0))
    let sov ← pyToInt (dGet d "strikeOuts" (.int 0))
    let hrv ← pyToInt (dGet d "homeRuns" (.int 0))
    let svv ← pyToInt (dGet d "saves" (.int 0))
    let gsv ← pyToInt (dGet d "gamesStarted" (.int 0))
    some (ipv, h, er, bbv, sov, hrv, svv, gsv) : Option _) with
  | none => pitchingOnError
  | some (ipv, h, er, bbv, sov, hrv, svv, gsv) =>
    let era := if 0 < (Q.ofFP ipv).n then (FP.ofInt (er * 9)).divFP ipv else FP.zero
    let whip := if 0 < (Q.ofFP ipv).n then (FP.ofInt (bbv + h)).divFP ipv else FP.zero
    ⟨era.render 2, whip.render 2, sov, bbv, ipv.render 1, h, hrv, svv, gsv, er⟩

/-! ### get_player_stats / get_season_stats.

An upstream player-stats response is either a fetch failure or the parsed
JSON reduced to what the code reads: the 'stats' array, each element reduced
to its 'splits' array, each split reduced to its 'stat' dict (`none` when the
'stat' key is absent). -/

inductive StatType where
  | hitting
  | pitching
deriving DecidableEq, Repr

def PlayerPayload := List (List (Option StatDict))

/-- The value space of get_player_stats / get_season_stats: a hitting dict,
a pitching dict, or the empty dict {}. -/
inductive StatsResult where
  | hit (d : DerivedHittingStats)
  | pit (d : DerivedPitchingStats)
  | emptyDict
deriving DecidableEq, Repr

/-- get_season_stats (the body; caching is modelled separately). -/
def get_season_stats (ty : StatType) (resp : Except Unit PlayerPayload) : StatsResult :=
  match resp with
  | .error _ => .emptyDict
  | .ok stats =>
    match stats with
    | [] => .emptyDict
    | g :: _ =>
      match g with
      | [] => .emptyDict
      | s :: _ =>
        match s with
        | none => .emptyDict
        | some d =>
          match ty with
          | .hitting => .hit (format_hitting_stats d)
          | .pitching => .pit (format_pitching_stats d)

/-- get_player_stats (the body): rolling game-log aggregation, falling back to
get_season_stats when the game-log response fails or has no splits. -/
def get_player_stats (ty : StatType) (logResp seasonResp : Except Unit PlayerPayload) :
    StatsResult :=
  match logResp with
  | .error _ => get_season_stats ty seasonResp
  | .ok stats =>
    match stats with
    | [] => get_season_stats ty seasonResp
    | g :: _ =>
      if g.isEmpty then get_season_stats ty seasonResp
      else
        match ty with
        | .hitting => .hit (aggregate_hitting_stats g)
        | .pitching => .pit (aggregate_pitching_stats g)

/-- Whether a player-stats response triggers the fallback: the fetch failed,
the 'stats' array is missing/empty, or the first group has no splits. -/
def lacksSplits : Except Unit PlayerPayload → Bool
  | .error _ => true
  | .ok [] => true
  | .ok (g :: _) => g.isEmpty

/-! ### The memoizing cache (flask_caching cache.memoize, 'simple' backend).

`memoCall` models one memoized invocation for one key: a fresh entry is
returned without invoking the wrapped body; otherwise the body runs and its
return value — whatever it is — is stored with the current timestamp. The
returned Bool reports whether the body was invoked. -/

structure CacheEntry (α : Type) where
  value : α
  storedAt : ℕ
deriving DecidableEq, Repr

def memoCall {α : Type} (entry : Option (CacheEntry α)) (now ttl : ℕ) (body : Unit → α) :
    α × CacheEntry α × Bool :=
  match entry with
  | some ce =>
    if now < ce.storedAt + ttl then (ce.value, ce, false)
    else
      let v := body ()
      (v, ⟨v, now⟩, true)
  | none =>
    let v := body ()
    (v, ⟨v, now⟩, true)

/-- One raw game of the schedule payload (fields the code indexes directly;
a missing required key would raise KeyError, which the source does not catch
and which is outside the claims in scope). -/
structure RawGame where
  gamePk : ℤ
  awayName : String
  homeName : String
  awayId : ℤ
  homeId : ℤ
  detailedState : String
  gameDate : String
  venueName : String
deriving DecidableEq, Repr

structure GameInfo where
  id : ℤ
  away_team : String
  home_team : String
  away_id : ℤ
  home_id : ℤ
  status : String
  game_time : String
  venue : String
deriving DecidableEq, Repr

def strLower (s : String) : String := String.mk (s.data.map Char.toLower)

def mkGameInfo (g : RawGame) : GameInfo :=
  ⟨g.gamePk, g.awayName, g.homeName, g.awayId, g.homeId,
   strLower g.detailedState, g.gameDate, g.venueName⟩

/-- The body of get_todays_games: a schedule payload is the 'dates' array,
each date reduced to its games list. On RequestException the body returns []. -/
def getTodaysGamesBody (upstream : Except Unit (List (List RawGame))) : List GameInfo :=
  match upstream with
  | .error _ => []
  | .ok dates =>
    match dates with
    | [] => []
    | d0 :: _ => d0.map mkGameInfo

/-- get_todays_games as deployed: the body wrapped in cache.memoize(timeout=180). -/
def get_todays_games_cached (entry : Option (CacheEntry (List GameInfo))) (now : ℕ)
    (upstream : Except Unit (List (List RawGame))) :
    List GameInfo × CacheEntry (List GameInfo) × Bool :=
  memoCall entry now 180 (fun _ => getTodaysGamesBody upstream)

/-! ### get_team_stats. -/

structure TeamStatsDict where
  AVG : String
  OBP : String
  SLG : String
  HR : String
  ERA : String
  WHIP : String
  SV : String
deriving DecidableEq, Repr

/-- The initial team_stats dict built before the stat-group loop. -/
def zeroTeamStats : TeamStatsDict := ⟨".000", ".000", ".000", "0", "0.00", "0.00", "0"⟩

/-- The dict returned from the except branch of get_team_stats. -/
def teamStatsFallback : TeamStatsDict := ⟨".245", ".315", ".425", "15", "4.15", "1.32", "5"⟩

structure TeamStatGroup where
  displayName : String
  splits : List (Option StatDict)
deriving DecidableEq, Repr

/-- The two kinds of exception the stat-group loop can raise: ValueError /
TypeError from float() conversion, which the source's
`except (RequestException, ValueError, TypeError)` clause catches, and
KeyError from `splits[0]['stat']` when the 'stat' key is absent, which is NOT
in the except tuple and propagates out of get_team_stats. -/
inductive TSErr where
  | caught
  | uncaught
deriving DecidableEq, Repr

/-- float() raising ValueError/TypeError, as an exception the loop raises. -/
def toCaught : Option FP → Except TSErr FP
  | some v => .ok v
  | none => .error .caught

def teamStatsStep (acc : TeamStatsDict) (g : TeamStatGroup) : Except TSErr TeamStatsDict :=
  if g.displayName = "hitting" && !g.splits.isEmpty then
    match g.splits with
    | [] => .ok acc
    | s :: _ =>
      match s with
      | none => .error .uncaught
      | some d => do
        let avgv ← toCaught (pyToFloat (dGet d "avg" (.int 0)))
        let obpv ← toCaught (pyToFloat (dGet d "obp" (.int 0)))
        let slgv ← toCaught (pyToFloat (dGet d "slg" (.int 0)))
        .ok { acc with AVG := avgv.render 3, OBP := obpv.render 3, SLG := slgv.render 3,
                       HR := pyStr (dGet d "homeRuns" (.int 0)) }
  else if g.displayName = "pitching" && !g.splits.isEmpty then
    match g.splits with
    | [] => .ok acc
    | s :: _ =>
      match s with
      | none => .error .uncaught
      | some d => do
        let erav ← toCaught (pyToFloat (dGet d "era" (.int 0)))
        let whipv ← toCaught (pyToFloat (dGet d "whip" (.int 0)))
        .ok { acc with ERA := erav.render 2, WHIP := whipv.render 2,
                       SV := pyStr (dGet d "saves" (.int 0)) }
  else .ok acc

/-- get_team_stats (the body). A transport failure or a caught ValueError /
TypeError from the stat-group loop lands in the except branch, which returns
the fixed fallback dict; an uncaught KeyError (a split whose 'stat' key is
absent) propagates — the function raises instead of returning
(result .error ()). -/
def get_team_stats (resp : Except Unit (List TeamStatGroup)) : Except Unit TeamStatsDict :=
  match resp with
  | .error _ => .ok teamStatsFallback
  | .ok gs =>
    match gs.foldl (fun a g => a.bind (fun acc => teamStatsStep acc g))
        (Except.ok zeroTeamStats : Except TSErr TeamStatsDict) with
    | .ok t => .ok t
    | .error .caught => .ok teamStatsFallback
    | .error .uncaught => .error ()

/-! ### build_team_data. -/

structure RosterEntry where
  pid : ℤ
  pname : String
  position : String
  jersey : String
deriving DecidableEq, Repr

structure Roster where
  batters : List RosterEntry
  pitchers : List RosterEntry
deriving DecidableEq, Repr

/-- A player stats dict as stored in the view: a hitting dict, a pitching
dict, the batter placeholder (a 7-key dict, never equal to any 10-key
hitting dict), or the empty dict. The pitcher placeholder of the source is
value-identical to `pitchingOnError` and is represented as `pit pitchingOnError`. -/
inductive PDictVal where
  | hitD (d : DerivedHittingStats)
  | pitD (d : DerivedPitchingStats)
  | hitPlaceholder
  | emptyD
deriving DecidableEq, Repr

def StatsResult.toPDict : StatsResult → PDictVal
  | .hit d => .hitD d
  | .pit d => .pitD d
  | .emptyDict => .emptyD

structure WindowStats where
  w7 : PDictVal
  w10 : PDictVal
  w21 : PDictVal
deriving DecidableEq, Repr

structure PlayerView where
  info : RosterEntry
  stats : WindowStats
deriving DecidableEq, Repr

structure RollingTeamStats where
  AVG : String
  OBP : String
  SLG : String
  HR : String
  AVG_HITS : String
  AVG_K : String
deriving DecidableEq, Repr

structure TeamView where
  tname : String
  lineup : List PlayerView
  fullBatters : List PlayerView
  fullPitchers : List PlayerView
  starter : Option PlayerView
  team7 : TeamStatsDict
  team10 : TeamStatsDict
  team21 : TeamStatsDict
  rolling7 : RollingTeamStats
  rolling10 : RollingTeamStats
  rolling21 : RollingTeamStats
deriving DecidableEq, Repr

/-- A key batter, with live stats fetched for the three windows. -/
def batWith (fetch : ℤ → StatType → ℕ → StatsResult) (b : RosterEntry) : PlayerView :=
  ⟨b, ⟨(fetch b.pid .hitting 7).toPDict, (fetch b.pid .hitting 10).toPDict,
       (fetch b.pid .hitting 21).toPDict⟩⟩

/-- A remaining batter, with the display-only placeholder dict
{avg,obp,slg,hr,rbi,h,ab} (all zero). -/
def batPh (b : RosterEntry) : PlayerView :=
  ⟨b, ⟨.hitPlaceholder, .hitPlaceholder, .hitPlaceholder⟩⟩

/-- A key pitcher, with live stats fetched for the three windows. -/
def pitWith (fetch : ℤ → StatType → ℕ → StatsResult) (p : RosterEntry) : PlayerView :=
  ⟨p, ⟨(fetch p.pid .pitching 7).toPDict, (fetch p.pid .pitching 10).toPDict,
       (fetch p.pid .pitching 21).toPDict⟩⟩

/-- A remaining pitcher, with the all-zero pitching placeholder dict. -/
def pitPh (p : RosterEntry) : PlayerView :=
  ⟨p, ⟨.pitD pitchingOnError, .pitD pitchingOnError, .pitD pitchingOnError⟩⟩

/-- build_team_data. `fetch` abstracts the memoized MLBStatsAPI.get_player_stats.
The Python loops mutate the shared player dicts, so the lineup entries and the
first five of fullRoster.batters are the same statted objects; fullRoster slices
the roster lists to their first 10 entries before any stats are attached. -/
def build_team_data (fetch : ℤ → StatType → ℕ → StatsResult) (team_name : String)
    (roster : Roster) (team_stats : TeamStatsDict) : TeamView :=
  let lineup := (roster.batters.take 5).map (batWith fetch)
  let fullBatters := lineup ++ ((roster.batters.drop 5).take 5).map batPh
  let fullPitchers := (roster.pitchers.take 3).map (pitWith fetch)
      ++ ((roster.pitchers.drop 3).take 7).map pitPh
  { tname := team_name
    lineup := lineup
    fullBatters := fullBatters
    fullPitchers := fullPitchers
    starter := fullPitchers.head?
    team7 := team_stats
    team10 := team_stats
    team21 := team_stats
    rolling7 := ⟨".250", ".320", ".400", "10", "4.2", "3.8"⟩
    rolling10 := ⟨".248", ".318", ".395", "12", "4.0", "4.1"⟩
    rolling21 := ⟨".245", ".315", ".390", "15", "3.8", "4.3"⟩ }

/-- A concrete roster with 12 batters and 4 pitchers. -/
def roster12x4 : Roster :=
  ⟨(List.range 12).map (fun i => ⟨(i : ℤ), "b", "IF", ""⟩),
   (List.range 4).map (fun i => ⟨(100 + i : ℤ), "p", "P", ""⟩)⟩

/-! ## Proof layer: correctness lemmas for the numeric core. -/

theorem log2fuel_spec (fu : ℕ) : ∀ n : ℕ, 1 ≤ n → n ≤ fu →
    2 ^ log2fuel fu n ≤ n ∧ n < 2 ^ (log2fuel fu n + 1) := by
  induction fu with
  | zero => intro n h1 h2; omega
  | succ fu ih =>
    intro n h1 h2
    rw [log2fuel]
    by_cases hle : n ≤ 1
    · simp only [if_pos hle]
      constructor
      · simpa using (by omega : 1 ≤ n)
      · simpa using (by omega : n < 2)
    · simp only [if_neg hle]
      have h2n : 2 ≤ n := by omega
      have hrec := ih (n / 2) (by omega) (by omega)
      rcases hrec with ⟨hlo, hhi⟩
      have hp : (2:ℕ) ^ (log2fuel fu (n / 2) + 1) = 2 ^ log2fuel fu (n / 2) * 2 :=
        pow_succ 2 _
      have hp2 : (2:ℕ) ^ (log2fuel fu (n / 2) + 1 + 1) = 2 ^ (log2fuel fu (n / 2) + 1) * 2 :=
        pow_succ 2 _
      omega

theorem natLog2_spec (n : ℕ) (h : 1 ≤ n) :
    2 ^ natLog2 n ≤ n ∧ n < 2 ^ (natLog2 n + 1) :=
  log2fuel_spec n n h le_rfl

theorem two_zpow_pos (e : ℤ) : (0:ℚ) < 2 ^ e := by positivity

theorem two_zpow_negNat (k : ℕ) : (2:ℚ) ^ (-(k:ℤ)) = 1 / 2 ^ k := by
  rw [zpow_neg, zpow_natCast, one_div]

/-- flog2 correctly brackets the value of a positive fraction. -/
theorem Q.flog2_spec (q : Q) (hn : 0 < q.n) (hd : 0 < q.d) :
    (2:ℚ) ^ q.flog2 ≤ q.val ∧ q.val < (2:ℚ) ^ (q.flog2 + 1) := by
  rcases q with ⟨nz, b⟩
  replace hn : 0 < nz := hn
  replace hd : 0 < b := hd
  obtain ⟨a, rfl⟩ : ∃ a : ℕ, nz = (a : ℤ) := ⟨nz.toNat, (Int.toNat_of_nonneg (le_of_lt hn)).symm⟩
  have ha : 0 < a := by exact_mod_cast hn
  have hbq : (0:ℚ) < (b:ℚ) := by exact_mod_cast hd
  have haq : (0:ℚ) < (a:ℚ) := by exact_mod_cast ha
  have hval : Q.val ⟨(a:ℤ), b⟩ = (a:ℚ) / b := by
    simp [Q.val]
  rw [hval]
  rw [Q.flog2]
  simp only [Int.toNat_natCast]
  by_cases hba : b ≤ a
  · simp only [if_pos hba]
    set L := natLog2 (a / b) with hL
    have hm1 : 1 ≤ a / b := (Nat.one_le_div_iff hd).mpr hba
    obtain ⟨hlo, hhi⟩ := natLog2_spec (a / b) hm1
    have hdm := Nat.div_add_mod a b
    have hmlt := Nat.mod_lt a hd
    constructor
    · rw [zpow_natCast]
      rw [le_div_iff₀ hbq]
      have h2 : 2 ^ L * b ≤ a := by
        calc 2 ^ L * b ≤ (a / b) * b := Nat.mul_le_mul_right b hlo
          _ ≤ a := Nat.div_mul_le_self a b
      exact_mod_cast h2
    · have hcast : ((L:ℤ) + 1) = ((L + 1 : ℕ) : ℤ) := by push_cast; ring
      rw [hcast, zpow_natCast]
      rw [div_lt_iff₀ hbq]
      have h2 : a < 2 ^ (L + 1) * b := by
        have hstep : a / b + 1 ≤ 2 ^ (L + 1) := hhi
        calc a < b * (a / b) + b := by linarith
          _ = (a / b + 1) * b := by ring
          _ ≤ 2 ^ (L + 1) * b := Nat.mul_le_mul_right b hstep
      exact_mod_cast h2
  · simp only [if_neg hba]
    have hab : a < b := by omega
    have hm1 : 1 ≤ b / a := (Nat.one_le_div_iff ha).mpr (by omega)
    set k := natLog2 (b / a) with hk
    obtain ⟨hlo, hhi⟩ := natLog2_spec (b / a) hm1
    have hdm := Nat.div_add_mod b a
    have hmlt := Nat.mod_lt b ha
    have hlow : 2 ^ k * a ≤ b := by
      calc 2 ^ k * a ≤ (b / a) * a := Nat.mul_le_mul_right a hlo
        _ ≤ b := Nat.div_mul_le_self b a
    have hup : b < 2 ^ (k + 1) * a := by
      have hstep : b / a + 1 ≤ 2 ^ (k + 1) := hhi
      calc b < a * (b / a) + a := by linarith
        _ = (b / a + 1) * a := by ring
        _ ≤ 2 ^ (k + 1) * a := Nat.mul_le_mul_right a hstep
    by_cases hex : a * 2 ^ k = b
    · simp only [if_pos hex]
      have hbv : (b:ℚ) = (a:ℚ) * 2 ^ k := by exact_mod_cast hex.symm
      have hfrac : (a:ℚ) / b = 1 / 2 ^ k := by
        rw [hbv]
        rw [div_mul_eq_div_div, div_self (ne_of_gt haq)]
      constructor
      · rw [two_zpow_negNat, hfrac]
      · rw [hfrac]
        have hneg : (-(k:ℤ) + 1) = -((k:ℤ) - 1) := by ring
        rw [hneg, zpow_neg]
        rw [inv_eq_one_div]
        apply div_lt_div_of_pos_left one_pos (two_zpow_pos _)
        calc (2:ℚ) ^ ((k:ℤ) - 1) = 2 ^ (k:ℤ) / 2 := by
              rw [zpow_sub₀ (by norm_num : (2:ℚ) ≠ 0)]; norm_num
          _ < 2 ^ (k:ℤ) := by
              have := two_zpow_pos (k:ℤ)
              linarith
          _ = 2 ^ k := zpow_natCast 2 k
    · simp only [if_neg hex]
      have hle2 : a * 2 ^ k ≤ b := by
        calc a * 2 ^ k = 2 ^ k * a := by ring
          _ ≤ b := hlow
      have hlt : a * 2 ^ k < b := lt_of_le_of_ne hle2 hex
      constructor
      · have hcast : (-(k:ℤ) - 1) = -((k + 1 : ℕ) : ℤ) := by push_cast; ring
        rw [hcast, two_zpow_negNat]
        rw [div_le_div_iff₀ (by positivity) hbq]
        have h2 : b ≤ a * 2 ^ (k + 1) := by
          calc b ≤ 2 ^ (k + 1) * a := le_of_lt hup
            _ = a * 2 ^ (k + 1) := by ring
        have h2q : (b:ℚ) ≤ (a:ℚ) * 2 ^ (k + 1) := by exact_mod_cast h2
        calc (1:ℚ) * b = (b:ℚ) := by ring
          _ ≤ (a:ℚ) * 2 ^ (k + 1) := h2q
      · have hcast : (-(k:ℤ) - 1 + 1) = -(k:ℤ) := by ring
        rw [hcast, two_zpow_negNat]
        rw [div_lt_div_iff₀ hbq (by positivity)]
        have h2q : (a:ℚ) * 2 ^ k < b := by exact_mod_cast hlt
        calc (a:ℚ) * 2 ^ k < (b:ℚ) := h2q
          _ = 1 * (b:ℚ) := by ring

theorem FP.val_zero : FP.zero.val = 0 := by
  rw [FP.zero, FP.val]
  norm_num

theorem Q.val_ofFP (x : FP) : (Q.ofFP x).val = x.val := by
  rcases x with ⟨m, e⟩
  rw [Q.ofFP, FP.val]
  by_cases h : 0 ≤ e
  · simp only [if_pos h]
    show ((m * 2 ^ e.toNat : ℤ) : ℚ) / ((1 : ℕ) : ℚ) = (m : ℚ) * 2 ^ e
    push_cast
    rw [div_one]
    congr 1
    rw [← zpow_natCast (2:ℚ) e.toNat, Int.toNat_of_nonneg h]
  · simp only [if_neg h]
    show ((m : ℤ) : ℚ) / ((2 ^ (-e).toNat : ℕ) : ℚ) = (m : ℚ) * 2 ^ e
    push_cast
    rw [div_eq_mul_inv]
    congr 1
    rw [← zpow_natCast (2:ℚ) (-e).toNat, ← zpow_neg]
    congr 1
    omega

theorem Q.ofFP_d_pos (x : FP) : 0 < (Q.ofFP x).d := by
  rw [Q.ofFP]
  split
  · exact one_pos
  · positivity

theorem Q.ofFP_n_nonneg (x : FP) (hx : 0 ≤ x.val) : 0 ≤ (Q.ofFP x).n := by
  have hm : 0 ≤ x.m := by
    by_contra hneg
    push_neg at hneg
    have h1 : (x.m : ℚ) < 0 := by exact_mod_cast hneg
    have h2 : x.val < 0 := mul_neg_of_neg_of_pos h1 (two_zpow_pos x.e)
    linarith
  rw [Q.ofFP]
  split
  · exact mul_nonneg hm (by positivity)
  · exact hm

theorem Q.val_add (q r : Q) (hq : 0 < q.d) (hr : 0 < r.d) :
    (q.add r).val = q.val + r.val := by
  have h1 : (q.d:ℚ) ≠ 0 := ne_of_gt (by exact_mod_cast hq)
  have h2 : (r.d:ℚ) ≠ 0 := ne_of_gt (by exact_mod_cast hr)
  rw [Q.add]
  show ((q.n * r.d + r.n * q.d : ℤ) : ℚ) / ((q.d * r.d : ℕ) : ℚ) = q.val + r.val
  rw [Q.val, Q.val]
  push_cast
  rw [div_add_div _ _ h1 h2, div_eq_div_iff (by positivity) (by positivity)]
  ring

theorem Q.add_d_pos (q r : Q) (hq : 0 < q.d) (hr : 0 < r.d) : 0 < (q.add r).d :=
  Nat.mul_pos hq hr

theorem Q.add_n_nonneg (q r : Q) (hq : 0 ≤ q.n) (hr : 0 ≤ r.n) : 0 ≤ (q.add r).n := by
  rw [Q.add]
  have : 0 ≤ q.n * r.d := mul_nonneg hq (by positivity)
  have : 0 ≤ r.n * q.d := mul_nonneg hr (by positivity)
  show 0 ≤ q.n * r.d + r.n * q.d
  positivity

theorem Q.val_mulPow10 (q : Q) (k : ℕ) : (q.mulPow10 k).val = q.val * 10 ^ k := by
  rw [Q.mulPow10]
  show ((q.n * 10 ^ k : ℤ) : ℚ) / (q.d : ℚ) = q.val * 10 ^ k
  rw [Q.val]
  push_cast
  ring

theorem Q.val_shift2 (q : Q) (k : ℤ) (hd : 0 < q.d) :
    (q.shift2 k).val = q.val * 2 ^ k := by
  have hdq : (q.d:ℚ) ≠ 0 := ne_of_gt (by exact_mod_cast hd)
  rw [Q.shift2]
  by_cases h : 0 ≤ k
  · simp only [if_pos h]
    show ((q.n * 2 ^ k.toNat : ℤ) : ℚ) / (q.d : ℚ) = q.val * 2 ^ k
    rw [Q.val]
    push_cast
    rw [← zpow_natCast (2:ℚ) k.toNat, Int.toNat_of_nonneg h]
    ring
  · simp only [if_neg h]
    show ((q.n : ℤ) : ℚ) / ((q.d * 2 ^ (-k).toNat : ℕ) : ℚ) = q.val * 2 ^ k
    rw [Q.val]
    push_cast
    rw [div_mul_eq_div_div]
    rw [div_eq_mul_inv (_ / _)]
    congr 1
    rw [← zpow_natCast (2:ℚ) (-k).toNat, ← zpow_neg]
    congr 1
    omega

theorem Q.shift2_d_pos (q : Q) (k : ℤ) (hd : 0 < q.d) : 0 < (q.shift2 k).d := by
  rw [Q.shift2]
  split
  · exact hd
  · show 0 < q.d * 2 ^ _
    positivity

/-- Round-half-to-even rounds to within half a unit. -/
theorem Q.rndHE_spec (q : Q) (hd : 0 < q.d) : |((q.rndHE : ℤ) : ℚ) - q.val| ≤ 1 / 2 := by
  have hdz : (q.d:ℤ) ≠ 0 := by
    have : (0:ℤ) < q.d := by exact_mod_cast hd
    omega
  have hdq : (0:ℚ) < (q.d:ℚ) := by exact_mod_cast hd
  set f := q.n / (q.d:ℤ) with hf
  set r := q.n % (q.d:ℤ) with hr
  have hid : (q.d:ℤ) * f + r = q.n := Int.ediv_add_emod q.n q.d
  have hr0 : 0 ≤ r := Int.emod_nonneg q.n hdz
  have hrd : r < q.d := Int.emod_lt_of_pos q.n (by exact_mod_cast hd)
  have hrw : q.n - f * q.d = r := by linarith
  have hval : q.val = (f:ℚ) + (r:ℚ) / (q.d:ℚ) := by
    rw [Q.val]
    field_simp
    push_cast [← hid]
    ring
  have hfr0 : 0 ≤ (r:ℚ) / (q.d:ℚ) := div_nonneg (by exact_mod_cast hr0) (le_of_lt hdq)
  have hfr1 : (r:ℚ) / (q.d:ℚ) < 1 := by
    rw [div_lt_one hdq]
    exact_mod_cast hrd
  have hrnd : q.rndHE = if 2 * r < (q.d:ℤ) then f
      else if (q.d:ℤ) < 2 * r then f + 1
      else if f % 2 = 0 then f else f + 1 := by
    rw [Q.rndHE, hrw]
  rw [hrnd, hval]
  by_cases h1 : 2 * r < (q.d:ℤ)
  · rw [if_pos h1]
    have hlt : (r:ℚ) / (q.d:ℚ) < 1 / 2 := by
      rw [div_lt_div_iff₀ hdq (by norm_num)]
      have : (2:ℚ) * r < q.d := by exact_mod_cast h1
      linarith
    rw [abs_le]
    constructor <;> [skip; skip] <;> push_cast <;> linarith
  · rw [if_neg h1]
    by_cases h2 : (q.d:ℤ) < 2 * r
    · rw [if_pos h2]
      have hgt : 1 / 2 < (r:ℚ) / (q.d:ℚ) := by
        rw [div_lt_div_iff₀ (by norm_num) hdq]
        have : (q.d:ℚ) < 2 * r := by exact_mod_cast h2
        linarith
      rw [abs_le]
      constructor <;> push_cast <;> linarith
    · rw [if_neg h2]
      have heq : (r:ℚ) / (q.d:ℚ) = 1 / 2 := by
        have h3 : (2:ℤ) * r = q.d := by omega
        have h3q : (2:ℚ) * (r:ℚ) = (q.d:ℚ) := by exact_mod_cast h3
        rw [div_eq_div_iff (ne_of_gt hdq) (by norm_num)]
        linarith
      split
      · rw [abs_le]
        constructor <;> push_cast <;> linarith
      · rw [abs_le]
        constructor <;> push_cast <;> linarith

theorem two_zpow_mul (a b : ℤ) : (2:ℚ) ^ a * 2 ^ b = 2 ^ (a + b) :=
  (zpow_add₀ (by norm_num : (2:ℚ) ≠ 0) a b).symm

theorem intpow_cast_zpow (k : ℕ) : (((2:ℤ) ^ k : ℤ) : ℚ) = (2:ℚ) ^ (k:ℤ) := by
  push_cast
  rw [← zpow_natCast (2:ℚ) k]

theorem int_eq_zero_of_cast_abs_le_half (z : ℤ) (h : |((z:ℤ):ℚ)| ≤ 1/2) : z = 0 := by
  have h1 : |(z:ℚ)| < ((1:ℤ):ℚ) := by
    push_cast
    linarith
  rw [← Int.cast_abs] at h1
  have h2 : |z| < 1 := Int.cast_lt.mp h1
  have h3 : |z| ≤ 0 := by omega
  exact abs_eq_zero.mp (le_antisymm h3 (abs_nonneg z))

/-- The value computed by r2dPos, uniformly over the carry branch. -/
theorem Q.r2dPos_val (q : Q) :
    q.r2dPos.val = (((q.shift2 (52 - q.flog2)).rndHE : ℤ) : ℚ) * 2 ^ (q.flog2 - 52) := by
  rw [Q.r2dPos]
  set e := q.flog2
  set m := (q.shift2 (52 - e)).rndHE with hm
  by_cases h : m = 2 ^ 53
  · rw [if_pos h, h, FP.val]
    rw [intpow_cast_zpow, intpow_cast_zpow]
    rw [two_zpow_mul, two_zpow_mul]
    congr 1
    ring
  · rw [if_neg h, FP.val]

/-- Correct rounding: r2dPos is nonnegative, has relative error at most 2^-53,
and never crosses a power of two from below. -/
theorem Q.r2dPos_spec (q : Q) (hn : 0 < q.n) (hd : 0 < q.d) :
    0 ≤ q.r2dPos.val ∧ |q.r2dPos.val - q.val| ≤ q.val / 2 ^ 53 ∧
    ∀ k : ℤ, q.val ≤ (2:ℚ) ^ k → q.r2dPos.val ≤ 2 ^ k := by
  obtain ⟨hlo, hhi⟩ := Q.flog2_spec q hn hd
  set e := q.flog2 with he
  set s := q.shift2 (52 - e) with hs
  have hsd : 0 < s.d := Q.shift2_d_pos q _ hd
  have hsval : s.val = q.val * 2 ^ (52 - e) := Q.val_shift2 q _ hd
  have hq0 : 0 < q.val := lt_of_lt_of_le (two_zpow_pos e) hlo
  have hs52 : (2:ℚ) ^ (52:ℤ) ≤ s.val := by
    rw [hsval]
    calc (2:ℚ) ^ (52:ℤ) = 2 ^ e * 2 ^ (52 - e) := by rw [two_zpow_mul]; congr 1; ring
      _ ≤ q.val * 2 ^ (52 - e) := mul_le_mul_of_nonneg_right hlo (le_of_lt (two_zpow_pos _))
  have hs53 : s.val < (2:ℚ) ^ (53:ℤ) := by
    rw [hsval]
    calc q.val * 2 ^ (52 - e) < 2 ^ (e + 1) * 2 ^ (52 - e) :=
          mul_lt_mul_of_pos_right hhi (two_zpow_pos _)
      _ = (2:ℚ) ^ (53:ℤ) := by rw [two_zpow_mul]; congr 1; ring
  set m := s.rndHE with hm
  have hmspec : |((m:ℤ):ℚ) - s.val| ≤ 1 / 2 := Q.rndHE_spec s hsd
  have hmabs := abs_le.mp hmspec
  have hvid : q.r2dPos.val = (m:ℚ) * 2 ^ (e - 52) := Q.r2dPos_val q
  have hqvs : q.val = s.val * 2 ^ (e - 52) := by
    rw [hsval, mul_assoc, two_zpow_mul]
    have h0 : (52 - e) + (e - 52) = 0 := by ring
    rw [h0]
    norm_num
  have hm0 : (0:ℚ) ≤ (m:ℚ) := by
    have h52 : (0:ℚ) < 2 ^ (52:ℤ) := two_zpow_pos _
    linarith
  have herr : |q.r2dPos.val - q.val| ≤ q.val / 2 ^ 53 := by
    rw [hvid, hqvs]
    have hfac : (m:ℚ) * 2 ^ (e - 52) - s.val * 2 ^ (e - 52) = ((m:ℚ) - s.val) * 2 ^ (e - 52) := by
      ring
    rw [hfac, abs_mul, abs_of_pos (two_zpow_pos (e - 52))]
    have hstep : |(m:ℚ) - s.val| * 2 ^ (e - 52) ≤ (1 / 2) * 2 ^ (e - 52) :=
      mul_le_mul_of_nonneg_right hmspec (le_of_lt (two_zpow_pos _))
    apply le_trans hstep
    rw [le_div_iff₀ (by positivity : (0:ℚ) < 2 ^ (53:ℕ))]
    rw [← zpow_natCast (2:ℚ) 53]
    calc 1 / 2 * 2 ^ (e - 52) * 2 ^ ((53:ℕ):ℤ) = 2 ^ e := by
          rw [mul_assoc, two_zpow_mul]
          have h1 : (e - 52 + ((53:ℕ):ℤ)) = e + 1 := by push_cast; ring
          rw [h1]
          have h2 : (2:ℚ) ^ (e + 1) = 2 ^ e * 2 := by
            rw [← two_zpow_mul]
            norm_num
          rw [h2]
          ring
      _ ≤ s.val * 2 ^ (e - 52) := by rw [← hqvs]; exact hlo
  refine ⟨?_, herr, ?_⟩
  · rw [hvid]
    exact mul_nonneg hm0 (le_of_lt (two_zpow_pos _))
  · intro k hk
    have hek : e ≤ k := by
      have h2ek : (2:ℚ) ^ e ≤ 2 ^ k := le_trans hlo hk
      exact (zpow_le_zpow_iff_right₀ (by norm_num)).mp h2ek
    rcases lt_or_eq_of_le hek with hlt | heqk
    · have hm53q : (m:ℚ) ≤ (2:ℚ) ^ (53:ℤ) := by
        by_contra hgt
        push_neg at hgt
        have hge : (2:ℤ) ^ (53:ℕ) + 1 ≤ m := by
          have hq1 : (((2:ℤ) ^ (53:ℕ) : ℤ) : ℚ) < (m:ℚ) := by
            rw [intpow_cast_zpow]
            have hc : (2:ℚ) ^ ((53:ℕ):ℤ) = (2:ℚ) ^ (53:ℤ) := by norm_num
            rw [hc]
            exact hgt
          have := Int.cast_lt.mp hq1
          omega
        have hq2 : (((2:ℤ) ^ (53:ℕ) + 1 : ℤ) : ℚ) ≤ (m:ℚ) := Int.cast_le.mpr hge
        have hc2 : (((2:ℤ) ^ (53:ℕ) + 1 : ℤ) : ℚ) = (2:ℚ) ^ (53:ℤ) + 1 := by
          rw [Int.cast_add, intpow_cast_zpow, Int.cast_one]
          norm_num
        rw [hc2] at hq2
        linarith [hmabs.2, hs53]
      rw [hvid]
      calc (m:ℚ) * 2 ^ (e - 52) ≤ 2 ^ (53:ℤ) * 2 ^ (e - 52) :=
            mul_le_mul_of_nonneg_right hm53q (le_of_lt (two_zpow_pos _))
        _ = 2 ^ (e + 1) := by rw [two_zpow_mul]; congr 1; ring
        _ ≤ 2 ^ k := zpow_le_zpow_right₀ (by norm_num) (by omega)
    · have hqe : q.val = 2 ^ e := by
        rw [← heqk] at hk
        linarith
      have hsv : s.val = 2 ^ (52:ℤ) := by
        rw [hsval, hqe, two_zpow_mul]
        congr 1
        ring
      have hm52 : m = 2 ^ 52 := by
        have hz : m - 2 ^ 52 = 0 := by
          apply int_eq_zero_of_cast_abs_le_half
          have hc : ((m - 2 ^ 52 : ℤ) : ℚ) = (m:ℚ) - 2 ^ (52:ℤ) := by
            rw [Int.cast_sub, intpow_cast_zpow]
            norm_num
          rw [hc, ← hsv]
          exact hmspec
        omega
      rw [hvid, hm52, intpow_cast_zpow, two_zpow_mul, ← heqk]
      have h5252 : ((52:ℕ):ℤ) + (e - 52) = e := by push_cast; ring
      rw [h5252]

/-- Correct rounding for nonnegative fractions. -/
theorem Q.r2d_spec (q : Q) (hn : 0 ≤ q.n) (hd : 0 < q.d) :
    0 ≤ q.r2d.val ∧ |q.r2d.val - q.val| ≤ q.val / 2 ^ 53 ∧
    ∀ k : ℤ, q.val ≤ (2:ℚ) ^ k → q.r2d.val ≤ 2 ^ k := by
  rw [Q.r2d]
  by_cases h0 : q.n = 0
  · rw [if_pos h0]
    have hval0 : q.val = 0 := by
      rw [Q.val, h0]
      norm_num
    have hfv : FP.val ⟨0, 0⟩ = 0 := by
      rw [FP.val]
      norm_num
    rw [hfv, hval0]
    refine ⟨le_refl 0, by norm_num, ?_⟩
    intro k _
    exact le_of_lt (two_zpow_pos k)
  · rw [if_neg h0]
    have hpos : 0 < q.n := lt_of_le_of_ne hn (Ne.symm h0)
    rw [if_neg (by omega : ¬ q.n < 0)]
    exact Q.r2dPos_spec q hpos hd

/-- Correct rounding of Python int / int true division (nonneg numerator). -/
theorem fdivZ_spec (a b : ℤ) (ha : 0 ≤ a) (hb : 0 < b) :
    0 ≤ (fdivZ a b).val ∧ |(fdivZ a b).val - (a:ℚ) / (b:ℚ)| ≤ ((a:ℚ) / (b:ℚ)) / 2 ^ 53 ∧
    ∀ k : ℤ, (a:ℚ) / (b:ℚ) ≤ (2:ℚ) ^ k → (fdivZ a b).val ≤ 2 ^ k := by
  have hd : 0 < b.toNat := by omega
  have hval : (Q.mk a b.toNat).val = (a:ℚ) / (b:ℚ) := by
    rw [Q.val]
    congr 1
    exact_mod_cast Int.toNat_of_nonneg hb.le
  have hspec := Q.r2d_spec (Q.mk a b.toNat) ha hd
  rw [hval] at hspec
  exact hspec

/-- Correct rounding of float addition (nonneg operands). -/
theorem FP.add_spec (x y : FP) (hx : 0 ≤ x.val) (hy : 0 ≤ y.val) :
    0 ≤ (x.add y).val ∧ |(x.add y).val - (x.val + y.val)| ≤ (x.val + y.val) / 2 ^ 53 ∧
    ∀ k : ℤ, x.val + y.val ≤ (2:ℚ) ^ k → (x.add y).val ≤ 2 ^ k := by
  have h1 := Q.ofFP_d_pos x
  have h2 := Q.ofFP_d_pos y
  have hn1 := Q.ofFP_n_nonneg x hx
  have hn2 := Q.ofFP_n_nonneg y hy
  have hadd := Q.r2d_spec ((Q.ofFP x).add (Q.ofFP y)) (Q.add_n_nonneg _ _ hn1 hn2)
    (Q.add_d_pos _ _ h1 h2)
  have hv : ((Q.ofFP x).add (Q.ofFP y)).val = x.val + y.val := by
    rw [Q.val_add _ _ h1 h2, Q.val_ofFP, Q.val_ofFP]
  rw [hv] at hadd
  exact hadd

theorem Q.mulPow10_d_pos (q : Q) (k : ℕ) (hd : 0 < q.d) : 0 < (q.mulPow10 k).d := hd

theorem rend3_spec (x : FP) : |((rend3 x : ℤ):ℚ) - x.val * 1000| ≤ 1 / 2 := by
  have hd : 0 < ((Q.ofFP x).mulPow10 3).d := Q.mulPow10_d_pos _ 3 (Q.ofFP_d_pos x)
  have hv : ((Q.ofFP x).mulPow10 3).val = x.val * 1000 := by
    rw [Q.val_mulPow10, Q.val_ofFP]
    norm_num
  have := Q.rndHE_spec ((Q.ofFP x).mulPow10 3) hd
  rw [hv] at this
  exact this

theorem render_eq_rend3 (x : FP) : x.render 3 = renderSigned 3 (rend3 x) := rfl

/-- A float in [0,1] renders at 3 decimals as "0.xyz" or "1.000" —
Python fixed-point formatting always prints a leading integer digit. -/
theorem FP.render3_shape (x : FP) (h0 : 0 ≤ x.val) (h1 : x.val ≤ 1) :
    x.render 3 = "1.000" ∨ ∃ t : String, x.render 3 = "0." ++ t := by
  rw [render_eq_rend3]
  set n := rend3 x with hn
  have hspec := abs_le.mp (rend3_spec x)
  have hn0 : 0 ≤ n := by
    by_contra hneg
    push_neg at hneg
    have hc : (n:ℚ) ≤ -1 := by exact_mod_cast (by omega : n ≤ -1)
    have hq0 : (0:ℚ) ≤ x.val * 1000 := by nlinarith
    linarith [hspec.1]
  have hn1000 : n ≤ 1000 := by
    by_contra hgt
    push_neg at hgt
    have hc : (1001:ℚ) ≤ (n:ℚ) := by exact_mod_cast (by omega : (1001:ℤ) ≤ n)
    have hq1 : x.val * 1000 ≤ 1000 := by nlinarith
    linarith [hspec.2]
  rw [renderSigned, if_neg (by omega : ¬ n < 0)]
  rcases Nat.lt_or_ge n.toNat 1000 with hlt | hge
  · right
    refine ⟨padZeros 3 (toString (n.toNat % 10 ^ 3)), ?_⟩
    rw [renderCore]
    have hdiv : n.toNat / 10 ^ 3 = 0 := Nat.div_eq_of_lt (by norm_num; omega)
    rw [hdiv]
    have ht0 : toString (0:ℕ) = "0" := by decide
    rw [ht0]
    have hzz : ("0" ++ "." : String) = "0." := by decide
    rw [hzz]
  · left
    have hteq : n.toNat = 1000 := by omega
    rw [renderCore, hteq]
    decide

/-! ### Lemmas about the aggregation folds. -/

theorem foldl_bind_none {α β : Type} (step : β → α → Option β) (logs : List α) :
    logs.foldl (fun a g => a.bind (fun t => step t g)) none = none := by
  induction logs with
  | nil => rfl
  | cons g rest ih => simpa using ih

theorem foldl_bind_fail {α β : Type} (step : β → α → Option β) :
    ∀ (logs : List α) (acc : Option β), (∃ g ∈ logs, ∀ t, step t g = none) →
      logs.foldl (fun a g => a.bind (fun t => step t g)) acc = none := by
  intro logs
  induction logs with
  | nil =>
    intro acc h
    rcases h with ⟨g, hg, _⟩
    exact absurd hg (List.not_mem_nil g)
  | cons g rest ih =>
    intro acc h
    rcases h with ⟨b, hb, hbad⟩
    rcases List.mem_cons.mp hb with rfl | hbr
    · have hstep : acc.bind (fun t => step t b) = none := by
        cases acc with
        | none => rfl
        | some t => exact hbad t
      rw [List.foldl_cons, hstep]
      exact foldl_bind_none step rest
    · rw [List.foldl_cons]
      exact ih _ ⟨b, hbr, hbad⟩

theorem hitAdd_right_comm (t dx dy : HitTotals) :
    hitAdd (hitAdd t dx) dy = hitAdd (hitAdd t dy) dx := by
  simp only [hitAdd, HitTotals.mk.injEq]
  refine ⟨by ring, by ring, by ring, by ring, by ring, by ring, by ring⟩

theorem hitStep_comm (t : HitTotals) (x y : Option StatDict) :
    (hitStep t x).bind (fun u => hitStep u y) = (hitStep t y).bind (fun u => hitStep u x) := by
  simp only [hitStep]
  cases hpx : parseHitGame x with
  | none =>
    cases hpy : parseHitGame y with
    | none => rfl
    | some dy =>
      simp only [Option.map_none', Option.map_some', Option.none_bind, Option.some_bind, hpx]
  | some dx =>
    cases hpy : parseHitGame y with
    | none =>
      simp only [Option.map_none', Option.map_some', Option.none_bind, Option.some_bind, hpy]
    | some dy =>
      simp only [Option.map_some', Option.some_bind, hpx, hpy, Option.map_none']
      congr 1
      exact hitAdd_right_comm t dx dy

/-! ## Claims. -/

/-- C1 (counterexample): the failure default IS cached. At t=0 with a failing
upstream, get_todays_games stores [] in the cache; a second request at t=100
(within the 180s TTL) returns the cached [] WITHOUT invoking the producer,
even though the upstream now has a game — refuting the claim that a failing
call is retried on the next request. -/
theorem c1_failure_cached_counterexample :
    (get_todays_games_cached none 0 (.error ())).1 = [] ∧
    (get_todays_games_cached none 0 (.error ())).2.2 = true ∧
    (get_todays_games_cached (some (get_todays_games_cached none 0 (.error ())).2.1) 100
        (.ok [[⟨1, "Away", "Home", 2, 3, "Scheduled", "T", "V"⟩]])).2.2 = false ∧
    (get_todays_games_cached (some (get_todays_games_cached none 0 (.error ())).2.1) 100
        (.ok [[⟨1, "Away", "Home", 2, 3, "Scheduled", "T", "V"⟩]])).1 = [] ∧
    getTodaysGamesBody (.ok [[⟨1, "Away", "Home", 2, 3, "Scheduled", "T", "V"⟩]]) ≠ [] := by
  refine ⟨rfl, rfl, rfl, rfl, by decide⟩

/-- C1 (amended): after a failed fetch at time t1, the default [] is stored in
the cache; any call within the TTL window (t2 < t1 + 180) returns the cached
[] without invoking the producer; only once the TTL expires (t1 + 180 ≤ t2)
is the producer invoked again. -/
theorem c1_failure_cached (t1 t2 : ℕ) (up2 : Except Unit (List (List RawGame))) :
    (get_todays_games_cached none t1 (.error ())).1 = [] ∧
    (get_todays_games_cached none t1 (.error ())).2.1 = ⟨[], t1⟩ ∧
    (t2 < t1 + 180 →
      get_todays_games_cached (some ⟨[], t1⟩) t2 up2 = ([], ⟨[], t1⟩, false)) ∧
    (t1 + 180 ≤ t2 →
      (get_todays_games_cached (some ⟨[], t1⟩) t2 up2).2.2 = true ∧
      (get_todays_games_cached (some ⟨[], t1⟩) t2 up2).1 = getTodaysGamesBody up2) := by
  refine ⟨rfl, rfl, ?_, ?_⟩
  · intro h
    show memoCall (some ⟨[], t1⟩) t2 180 _ = _
    rw [memoCall]
    rw [if_pos h]
  · intro h
    show (memoCall (some ⟨[], t1⟩) t2 180 _).2.2 = true ∧
      (memoCall (some ⟨[], t1⟩) t2 180 _).1 = getTodaysGamesBody up2
    rw [memoCall]
    rw [if_neg (show ¬ t2 < t1 + 180 by omega)]
    exact ⟨rfl, rfl⟩

/-- C1 (witness): a concrete instance of the amended theorem, at t1 = 0,
t2 = 10 and an upstream that would succeed. -/
theorem c1_failure_cached_witness :
    get_todays_games_cached (some ⟨[], 0⟩) 10
      (.ok [[⟨1, "Away", "Home", 2, 3, "Scheduled", "T", "V"⟩]]) = ([], ⟨[], 0⟩, false) :=
  (c1_failure_cached 0 10 (.ok [[⟨1, "Away", "Home", 2, 3, "Scheduled", "T", "V"⟩]])).2.2.1
    (by omega)

/-- C2 (counterexample): when both the game-log fetch and the season fetch
fail, get_player_stats returns the EMPTY dict {} — not the all-zero
DerivedHittingStats structure the claim describes. -/
theorem c2_double_failure_counterexample :
    get_player_stats .hitting (.error ()) (.error ()) = .emptyDict ∧
    StatsResult.emptyDict ≠ .hit hittingOnError := by
  exact ⟨rfl, by decide⟩

/-- C2 (amended): if the game-log response fails or yields no splits and the
season response also fails or yields no splits, get_player_stats returns the
empty dict {} — never an error, but also not the all-zero structure. -/
theorem c2_double_failure_empty (ty : StatType) (lr sr : Except Unit PlayerPayload)
    (h1 : lacksSplits lr = true) (h2 : lacksSplits sr = true) :
    get_player_stats ty lr sr = .emptyDict := by
  have hseason : get_season_stats ty sr = .emptyDict := by
    rcases sr with e | stats
    · rfl
    · rcases stats with _ | ⟨g, rest⟩
      · rfl
      · have hg : g = [] := List.isEmpty_iff.mp (by simpa [lacksSplits] using h2)
        subst hg
        rfl
  rcases lr with e | stats
  · exact hseason
  · rcases stats with _ | ⟨g, rest⟩
    · exact hseason
    · have hg : g = [] := List.isEmpty_iff.mp (by simpa [lacksSplits] using h1)
      subst hg
      exact hseason

/-- C2 (witness): both responses fail outright. -/
theorem c2_double_failure_empty_witness :
    get_player_stats .pitching (.error ()) (.error ()) = .emptyDict :=
  c2_double_failure_empty .pitching (.error ()) (.error ()) rfl rfl

/-- C5: the innings-pitched thirds conversion. "6.1" converts to the float
6 + 1/3 (to double precision), "6.2" to 6 + 2/3, "6.0" and "6" to exactly 6;
and aggregating the two game logs "5.2" and "3.1" yields a floating-point
innings total of EXACTLY 9 (the rounding errors of the thirds cancel), with
the rendered ip string "9.0". -/
theorem c5_innings_thirds :
    convertIP "6.1" = some ((FP.ofInt 6).add (fdivZ 1 3)) ∧
    |((FP.ofInt 6).add (fdivZ 1 3)).val - (6 + 1/3 : ℚ)| < 1 / 2 ^ 50 ∧
    convertIP "6.2" = some ((FP.ofInt 6).add (fdivZ 2 3)) ∧
    |((FP.ofInt 6).add (fdivZ 2 3)).val - (6 + 2/3 : ℚ)| < 1 / 2 ^ 50 ∧
    convertIP "6.0" = some (FP.ofInt 6) ∧
    (FP.ofInt 6).val = 6 ∧
    convertIP "6" = some (FP.ofInt 6) ∧
    (pitchingTotals [some [("inningsPitched", .str "5.2")],
        some [("inningsPitched", .str "3.1")]]).map (fun t => t.innings_pitched)
      = some ⟨9 * 2 ^ 49, -49⟩ ∧
    FP.val ⟨9 * 2 ^ 49, -49⟩ = 9 ∧
    (aggregate_pitching_stats [some [("inningsPitched", .str "5.2")],
        some [("inningsPitched", .str "3.1")]]).ip = "9.0" := by
  refine ⟨by decide, ?_, by decide, ?_, by decide, ?_, by decide, by decide, ?_, by decide⟩
  · have hv : (FP.ofInt 6).add (fdivZ 1 3) = ⟨7130699410003285, -50⟩ := by decide
    rw [hv, FP.val]
    rw [show ((-50 : ℤ)) = -(50:ℤ) from rfl, zpow_neg]
    rw [abs_lt]
    constructor <;> norm_num
  · have hv : (FP.ofInt 6).add (fdivZ 2 3) = ⟨7505999378950827, -50⟩ := by decide
    rw [hv, FP.val]
    rw [show ((-50 : ℤ)) = -(50:ℤ) from rfl, zpow_neg]
    rw [abs_lt]
    constructor <;> norm_num
  · have hv : FP.ofInt 6 = ⟨6 * 2 ^ 50, -50⟩ := by decide
    rw [hv, FP.val]
    rw [show ((-50 : ℤ)) = -(50:ℤ) from rfl, zpow_neg]
    norm_num
  · rw [FP.val]
    rw [show ((-49 : ℤ)) = -(49:ℤ) from rfl, zpow_neg]
    norm_num

/-- C9: when the team-stats fetch fails — a transport failure, or a parse
error (ValueError/TypeError from float()) raised in the stat-group loop and
caught by the except clause — get_team_stats returns the fixed non-zero
placeholder {AVG .245, OBP .315, SLG .425, HR 15, ERA 4.15, WHIP 1.32, SV 5}:
not the all-zero initial dict, and not an error. (A split with a missing
'stat' key is outside the claim: its KeyError is not in the except tuple,
so on that path the function raises instead of returning the placeholder,
as the last clause records.) -/
theorem c9_team_stats_fallback :
    get_team_stats (.error ()) = .ok teamStatsFallback ∧
    (∀ gs : List TeamStatGroup,
      gs.foldl (fun a g => a.bind (fun acc => teamStatsStep acc g))
          (Except.ok zeroTeamStats : Except TSErr TeamStatsDict)
        = .error .caught →
      get_team_stats (.ok gs) = .ok teamStatsFallback) ∧
    teamStatsFallback = ⟨".245", ".315", ".425", "15", "4.15", "1.32", "5"⟩ ∧
    teamStatsFallback ≠ zeroTeamStats ∧
    (∀ gs : List TeamStatGroup,
      gs.foldl (fun a g => a.bind (fun acc => teamStatsStep acc g))
          (Except.ok zeroTeamStats : Except TSErr TeamStatsDict)
        = .error .uncaught →
      get_team_stats (.ok gs) = .error ()) := by
  refine ⟨rfl, ?_, rfl, by decide, ?_⟩
  · intro gs h
    rw [get_team_stats, h]
  · intro gs h
    rw [get_team_stats, h]

/-- C9 (witness): a hitting group whose avg value fails to parse as a float
raises ValueError, is caught, and lands in the except branch. -/
theorem c9_team_stats_fallback_witness :
    get_team_stats (.ok [⟨"hitting", [some [("avg", .str "zz")]]⟩]) = .ok teamStatsFallback :=
  c9_team_stats_fallback.2.1 [⟨"hitting", [some [("avg", .str "zz")]]⟩] rfl

/-- C10: the rolling team stats of every built team view are the fixed
hard-coded constants, for EVERY fetch function, team name, roster and team
stats — they depend on no input (so calculate_rolling_team_stats plays no
part in the view-building path). -/
theorem c10_rolling_team_stats_hardcoded (fetch : ℤ → StatType → ℕ → StatsResult)
    (team_name : String) (roster : Roster) (team_stats : TeamStatsDict) :
    (build_team_data fetch team_name roster team_stats).rolling7
      = ⟨".250", ".320", ".400", "10", "4.2", "3.8"⟩ ∧
    (build_team_data fetch team_name roster team_stats).rolling10
      = ⟨".248", ".318", ".395", "12", "4.0", "4.1"⟩ ∧
    (build_team_data fetch team_name roster team_stats).rolling21
      = ⟨".245", ".315", ".390", "15", "3.8", "4.3"⟩ :=
  ⟨rfl, rfl, rfl⟩

/-- C3 (counterexample): for a roster of 12 batters and 4 pitchers, the built
view does NOT contain the remaining 7 batters with the placeholder: the
fullRoster is sliced to the first 10 batters, so only 5 remaining batters
carry the placeholder and batters 11-12 are absent from the view entirely. -/
theorem c3_roster_slice_counterexample :
    roster12x4.batters.length = 12 ∧ roster12x4.pitchers.length = 4 ∧
    ((build_team_data (fun _ _ _ => .emptyDict) "T" roster12x4 zeroTeamStats).fullBatters.filter
      (fun pv => pv.stats == ⟨.hitPlaceholder, .hitPlaceholder, .hitPlaceholder⟩)).length = 5 ∧
    (build_team_data (fun _ _ _ => .emptyDict) "T" roster12x4 zeroTeamStats).fullBatters.length
      = 10 := by
  refine ⟨by decide, by decide, by decide, by decide⟩

/-- C3 (amended): for every roster with 12 batters and 4 pitchers, the view
has exactly 5 batters and 3 pitchers carrying live (fetched) stats; of the
remaining 7 batters only 5 are present (with the placeholder) and 2 are
dropped by the [:10] slice; the 1 remaining pitcher carries the all-zero
pitching placeholder. -/
theorem c3_view_shape (fetch : ℤ → StatType → ℕ → StatsResult) (team_name : String)
    (roster : Roster) (team_stats : TeamStatsDict)
    (hb : roster.batters.length = 12) (hp : roster.pitchers.length = 4) :
    (build_team_data fetch team_name roster team_stats).lineup
      = (roster.batters.take 5).map (batWith fetch) ∧
    (build_team_data fetch team_name roster team_stats).lineup.length = 5 ∧
    (build_team_data fetch team_name roster team_stats).fullBatters
      = (roster.batters.take 5).map (batWith fetch)
        ++ ((roster.batters.drop 5).take 5).map batPh ∧
    (build_team_data fetch team_name roster team_stats).fullBatters.length = 10 ∧
    ((roster.batters.drop 5).take 5).length = 5 ∧
    roster.batters.length - 10 = 2 ∧
    (build_team_data fetch team_name roster team_stats).fullPitchers
      = (roster.pitchers.take 3).map (pitWith fetch) ++ (roster.pitchers.drop 3).map pitPh ∧
    ((roster.pitchers.take 3).map (pitWith fetch)).length = 3 ∧
    ((roster.pitchers.drop 3).map pitPh).length = 1 := by
  have hdrop : (roster.pitchers.drop 3).take 7 = roster.pitchers.drop 3 :=
    List.take_of_length_le (by rw [List.length_drop, hp]; omega)
  refine ⟨rfl, ?_, rfl, ?_, ?_, by omega, ?_, ?_, ?_⟩
  · rw [build_team_data]
    simp [List.length_take, hb]
  · rw [build_team_data]
    simp [List.length_take, List.length_drop, hb]
  · simp [List.length_take, List.length_drop, hb]
  · rw [build_team_data]
    simp only []
    rw [hdrop]
  · simp [List.length_take, hp]
  · simp [List.length_drop, hp]

/-- C3 (witness): the amended theorem at the concrete 12+4 roster. -/
theorem c3_view_shape_witness :
    (build_team_data (fun _ _ _ => .emptyDict) "T" roster12x4 zeroTeamStats).fullBatters.length
      = 10 :=
  (c3_view_shape (fun _ _ _ => .emptyDict) "T" roster12x4 zeroTeamStats
    (by decide) (by decide)).2.2.2.1

/-- C4 (counterexample): H = 6, AB = 20 renders avg as "0.300", not ".300";
and AB = 0 renders "0.000", not ".000" — Python %.3f formatting always prints
a leading integer digit, unlike the claim's examples. -/
theorem c4_avg_render_counterexample :
    (aggregate_hitting_stats [some [("atBats", .int 20), ("hits", .int 6)]]).avg = "0.300" ∧
    (aggregate_hitting_stats [some [("atBats", .int 20), ("hits", .int 6)]]).avg ≠ ".300" ∧
    (aggregate_hitting_stats [some [("atBats", .int 0), ("hits", .int 0)]]).avg = "0.000" ∧
    (aggregate_hitting_stats [some [("atBats", .int 0), ("hits", .int 0)]]).avg ≠ ".000" := by
  refine ⟨by decide, by decide, by decide, by decide⟩

/-- C4 (amended): for all H ≤ AB, the avg field is H/AB as a correctly-rounded
binary64, rendered by Python %.3f — i.e. with a leading integer digit: "0.ddd"
(or "1.000" when H = AB > 0), and exactly "0.000" when AB = 0. -/
theorem c4_avg_render (H AB : ℕ) (hle : H ≤ AB) :
    (aggregate_hitting_stats [some [("atBats", .int (AB:ℤ)), ("hits", .int (H:ℤ))]]).avg
      = (if 0 < (AB:ℤ) then fdivZ (H:ℤ) (AB:ℤ) else FP.zero).render 3 ∧
    (AB = 0 →
      (aggregate_hitting_stats [some [("atBats", .int (AB:ℤ)), ("hits", .int (H:ℤ))]]).avg
        = "0.000") ∧
    ((aggregate_hitting_stats [some [("atBats", .int (AB:ℤ)), ("hits", .int (H:ℤ))]]).avg
        = "1.000" ∨
      ∃ t : String,
        (aggregate_hitting_stats [some [("atBats", .int (AB:ℤ)), ("hits", .int (H:ℤ))]]).avg
          = "0." ++ t) := by
  have htot : hittingTotals [some [("atBats", .int (AB:ℤ)), ("hits", .int (H:ℤ))]]
      = some ⟨(AB:ℤ), (H:ℤ), 0, 0, 0, 0, 0⟩ := by
    show some (⟨0 + (AB:ℤ), 0 + (H:ℤ), 0 + 0, 0 + 0, 0 + 0, 0 + 0, 0 + 0⟩ : HitTotals) = _
    norm_num
  have hagg : aggregate_hitting_stats [some [("atBats", .int (AB:ℤ)), ("hits", .int (H:ℤ))]]
      = renderHitTotals ⟨(AB:ℤ), (H:ℤ), 0, 0, 0, 0, 0⟩ := by
    rw [aggregate_hitting_stats, htot]
  have havg : (renderHitTotals ⟨(AB:ℤ), (H:ℤ), 0, 0, 0, 0, 0⟩).avg
      = (if 0 < (AB:ℤ) then fdivZ (H:ℤ) (AB:ℤ) else FP.zero).render 3 := rfl
  refine ⟨by rw [hagg, havg], ?_, ?_⟩
  · intro h0
    subst h0
    rw [hagg, havg]
    norm_num
    decide
  · rw [hagg, havg]
    by_cases hab : 0 < (AB:ℤ)
    · rw [if_pos hab]
      have habn : (0:ℤ) < (AB:ℤ) := hab
      have hspec := fdivZ_spec (H:ℤ) (AB:ℤ) (by positivity) habn
      have hABq : (0:ℚ) < ((AB:ℤ):ℚ) := by exact_mod_cast habn
      have hle1 : ((H:ℤ):ℚ) / ((AB:ℤ):ℚ) ≤ (2:ℚ) ^ (0:ℤ) := by
        rw [zpow_zero, div_le_one hABq]
        exact_mod_cast hle
      have hub := hspec.2.2 0 hle1
      rw [zpow_zero] at hub
      exact FP.render3_shape _ hspec.1 hub
    · rw [if_neg hab]
      right
      exact ⟨"000", by decide⟩

/-- C4 (witness): the amended theorem at H = 6, AB = 20. -/
theorem c4_avg_render_witness :
    (aggregate_hitting_stats [some [("atBats", .int 20), ("hits", .int 6)]]).avg
      = (if 0 < (20:ℤ) then fdivZ 6 20 else FP.zero).render 3 :=
  (c4_avg_render 6 20 (by omega)).1

/-- C6 (counterexample): a single malformed record DOES void the whole
window. One game with atBats = "x" (unparseable) next to a well-formed game
with 4 at-bats and 2 hits makes the aggregator return the all-zero default;
the well-formed record alone would have produced ab = 4. -/
theorem c6_malformed_counterexample :
    aggregate_hitting_stats
        [some [("atBats", .int 4), ("hits", .int 2)], some [("atBats", .str "x")]]
      = hittingOnError ∧
    (aggregate_hitting_stats [some [("atBats", .int 4), ("hits", .int 2)]]).ab = 4 ∧
    hittingOnError.ab = 0 := by
  refine ⟨by decide, by decide, by decide⟩

/-- C6 (amended): MISSING fields default to zero field-by-field (a game with
no 'stat' key, or an empty stat dict, contributes zero and does not fail),
but any record with a field that fails to parse aborts the whole aggregation:
both aggregators return their all-zero default for the entire window. -/
theorem c6_missing_vs_malformed :
    (∀ logs : List (Option StatDict), (∃ g ∈ logs, ∀ t : HitTotals, hitStep t g = none) →
      aggregate_hitting_stats logs = hittingOnError) ∧
    (∀ logs : List (Option StatDict), (∃ g ∈ logs, ∀ t : PitchTotals, pitchStep t g = none) →
      aggregate_pitching_stats logs = pitchingOnError) ∧
    (∀ t : HitTotals, hitStep t none = some t ∧ hitStep t (some []) = some t) ∧
    pitchingTotals [none, some []] = some ⟨FP.zero, 0, 0, 0, 0, 0, 0, 0⟩ := by
  refine ⟨?_, ?_, ?_, by decide⟩
  · intro logs h
    rw [aggregate_hitting_stats,
      show hittingTotals logs = none from foldl_bind_fail hitStep logs _ h]
  · intro logs h
    rw [aggregate_pitching_stats,
      show pitchingTotals logs = none from foldl_bind_fail pitchStep logs _ h]
  · intro t
    constructor
    · show some (hitAdd t ⟨0, 0, 0, 0, 0, 0, 0⟩) = some t
      rw [hitAdd]
      norm_num
    · show some (hitAdd t ⟨0, 0, 0, 0, 0, 0, 0⟩) = some t
      rw [hitAdd]
      norm_num

/-- C6 (witness): the amended theorem's failure clause at a one-record window
whose atBats does not parse. -/
theorem c6_missing_vs_malformed_witness :
    aggregate_hitting_stats [some [("atBats", .str "x")]] = hittingOnError :=
  c6_missing_vs_malformed.1 [some [("atBats", .str "x")]]
    ⟨some [("atBats", .str "x")], List.mem_singleton.mpr rfl, fun _ => rfl⟩

set_option maxRecDepth 8000 in
/-- C7 (counterexample): the pitching aggregator is NOT permutation-invariant.
The multiset of innings strings {"0.1", "0.1", "2.0"} sums (in binary64) to
just below 8/3 in one order and just above it in another; with one earned run
the rendered ERA flips across the 3.375 rounding boundary: "3.38" vs "3.37".
(In CPython: 0.3333333333333333 + 0.3333333333333333 + 2 = 2.6666666666666665
but 0.3333333333333333 + 2 + 0.3333333333333333 = 2.666666666666667.) -/
theorem c7_perm_counterexample :
    ([some [("inningsPitched", .str "0.1"), ("earnedRuns", .int 1)],
      some [("inningsPitched", .str "0.1")], some [("inningsPitched", .str "2.0")]] :
        List (Option StatDict)).Perm
      [some [("inningsPitched", .str "0.1"), ("earnedRuns", .int 1)],
       some [("inningsPitched", .str "2.0")], some [("inningsPitched", .str "0.1")]] ∧
    (aggregate_pitching_stats
      [some [("inningsPitched", .str "0.1"), ("earnedRuns", .int 1)],
       some [("inningsPitched", .str "0.1")], some [("inningsPitched", .str "2.0")]]).era
      = "3.38" ∧
    (aggregate_pitching_stats
      [some [("inningsPitched", .str "0.1"), ("earnedRuns", .int 1)],
       some [("inningsPitched", .str "2.0")], some [("inningsPitched", .str "0.1")]]).era
      = "3.37" ∧
    aggregate_pitching_stats
      [some [("inningsPitched", .str "0.1"), ("earnedRuns", .int 1)],
       some [("inningsPitched", .str "0.1")], some [("inningsPitched", .str "2.0")]]
    ≠ aggregate_pitching_stats
      [some [("inningsPitched", .str "0.1"), ("earnedRuns", .int 1)],
       some [("inningsPitched", .str "2.0")], some [("inningsPitched", .str "0.1")]] := by
  refine ⟨by decide, by decide, by decide, by decide⟩

/-- C7 (amended): the HITTING aggregator is permutation-invariant: its totals
are exact integer sums, and a parse failure anywhere voids the window
regardless of position, so any permutation of the game logs yields identical
output. (The pitching aggregator is not, by the counterexample: its
floating-point innings accumulation is order-sensitive.) -/
theorem c7_hitting_perm_invariant (l1 l2 : List (Option StatDict)) (hp : l1.Perm l2) :
    aggregate_hitting_stats l1 = aggregate_hitting_stats l2 := by
  have htot : hittingTotals l1 = hittingTotals l2 := by
    rw [hittingTotals, hittingTotals]
    apply hp.foldl_eq' ?_ _
    intro x _ y _ z
    rcases z with _ | t
    · rfl
    · show (hitStep t x).bind (fun u => hitStep u y) = (hitStep t y).bind (fun u => hitStep u x)
      exact hitStep_comm t x y
  rw [aggregate_hitting_stats, aggregate_hitting_stats, htot]

/-- C7 (witness): the amended theorem at a concrete two-game permutation. -/
theorem c7_hitting_perm_invariant_witness :
    aggregate_hitting_stats [some [("atBats", .int 3)], some [("hits", .int 1)]]
      = aggregate_hitting_stats [some [("hits", .int 1)], some [("atBats", .int 3)]] :=
  c7_hitting_perm_invariant _ _ (by decide)

/-- C8: for every window of game-log splits whose totals are sane counting
stats (nonnegative counts, H ≤ AB, TB ≤ 4·AB), the rendered ops equals the
rendered obp plus the rendered slg to within one unit in the third decimal:
|n_ops − (n_obp + n_slg)| ≤ 1 on the 3-decimal numerators, i.e. within the
rounding tolerance of 3-decimal string rendering; and the obp/slg/ops string
fields are exactly the renderings of those numerators. -/
theorem c8_ops_eq_obp_plus_slg (logs : List (Option StatDict)) (t : HitTotals)
    (ht : hittingTotals logs = some t)
    (hh : 0 ≤ t.hits) (hbb : 0 ≤ t.walks) (htb : 0 ≤ t.total_bases)
    (hha : t.hits ≤ t.at_bats) (htb4 : t.total_bases ≤ 4 * t.at_bats) :
    |rend3 ((obpFP t).add (slgFP t)) - (rend3 (obpFP t) + rend3 (slgFP t))| ≤ 1 ∧
    (aggregate_hitting_stats logs).obp = renderSigned 3 (rend3 (obpFP t)) ∧
    (aggregate_hitting_stats logs).slg = renderSigned 3 (rend3 (slgFP t)) ∧
    (aggregate_hitting_stats logs).ops = renderSigned 3 (rend3 ((obpFP t).add (slgFP t))) := by
  have hagg : aggregate_hitting_stats logs = renderHitTotals t := by
    rw [aggregate_hitting_stats, ht]
  have hobp : 0 ≤ (obpFP t).val ∧ (obpFP t).val ≤ 1 := by
    rw [obpFP]
    by_cases hpos : 0 < t.at_bats + t.walks
    · rw [if_pos hpos]
      have hspec := fdivZ_spec (t.hits + t.walks) (t.at_bats + t.walks) (by omega) hpos
      have hposq : (0:ℚ) < ((t.at_bats + t.walks : ℤ) : ℚ) := by exact_mod_cast hpos
      have hle1 : ((t.hits + t.walks : ℤ) : ℚ) / ((t.at_bats + t.walks : ℤ) : ℚ)
          ≤ (2:ℚ) ^ (0:ℤ) := by
        rw [zpow_zero, div_le_one hposq]
        exact_mod_cast (by omega : t.hits + t.walks ≤ t.at_bats + t.walks)
      have hub := hspec.2.2 0 hle1
      rw [zpow_zero] at hub
      exact ⟨hspec.1, hub⟩
    · rw [if_neg hpos, FP.val_zero]
      norm_num
  have hslg : 0 ≤ (slgFP t).val ∧ (slgFP t).val ≤ 4 := by
    rw [slgFP]
    by_cases hpos : 0 < t.at_bats
    · rw [if_pos hpos]
      have hspec := fdivZ_spec t.total_bases t.at_bats htb hpos
      have hposq : (0:ℚ) < ((t.at_bats : ℤ) : ℚ) := by exact_mod_cast hpos
      have hle4 : ((t.total_bases : ℤ) : ℚ) / ((t.at_bats : ℤ) : ℚ) ≤ (2:ℚ) ^ (2:ℤ) := by
        rw [show ((2:ℚ) ^ (2:ℤ)) = 4 by norm_num, div_le_iff₀ hposq]
        exact_mod_cast (by omega : t.total_bases ≤ 4 * t.at_bats)
      have hub := hspec.2.2 2 hle4
      rw [show ((2:ℚ) ^ (2:ℤ)) = 4 by norm_num] at hub
      exact ⟨hspec.1, hub⟩
    · rw [if_neg hpos, FP.val_zero]
      norm_num
  have hadd := FP.add_spec (obpFP t) (slgFP t) hobp.1 hslg.1
  have herr : |((obpFP t).add (slgFP t)).val - ((obpFP t).val + (slgFP t).val)| ≤ 5 / 2 ^ 53 := by
    apply le_trans hadd.2.1
    have h5 : (obpFP t).val + (slgFP t).val ≤ 5 := by linarith [hobp.2, hslg.2]
    gcongr
  have ho := abs_le.mp (rend3_spec (obpFP t))
  have hs := abs_le.mp (rend3_spec (slgFP t))
  have hp := abs_le.mp (rend3_spec ((obpFP t).add (slgFP t)))
  have herr2 := abs_le.mp herr
  have hq : |((rend3 ((obpFP t).add (slgFP t)) - (rend3 (obpFP t) + rend3 (slgFP t)) : ℤ) : ℚ)|
      < ((2:ℤ):ℚ) := by
    push_cast
    rw [abs_lt]
    constructor
    · nlinarith [ho.1, ho.2, hs.1, hs.2, hp.1, hp.2, herr2.1, herr2.2]
    · nlinarith [ho.1, ho.2, hs.1, hs.2, hp.1, hp.2, herr2.1, herr2.2]
  have hint : |rend3 ((obpFP t).add (slgFP t)) - (rend3 (obpFP t) + rend3 (slgFP t))| ≤ 1 := by
    rw [← Int.cast_abs] at hq
    have := Int.cast_lt.mp hq
    omega
  exact ⟨hint, by rw [hagg]; rfl, by rw [hagg]; rfl, by rw [hagg]; rfl⟩

/-- C8 (witness): totals AB=20, H=6, BB=3, TB=10 — obp (6+3)/(20+3), slg
10/20, ops their float sum; rendered numerators agree within one thousandth. -/
theorem c8_ops_eq_obp_plus_slg_witness :
    |rend3 ((obpFP ⟨20, 6, 0, 0, 3, 0, 10⟩).add (slgFP ⟨20, 6, 0, 0, 3, 0, 10⟩))
      - (rend3 (obpFP ⟨20, 6, 0, 0, 3, 0, 10⟩) + rend3 (slgFP ⟨20, 6, 0, 0, 3, 0, 10⟩))| ≤ 1 :=
  (c8_ops_eq_obp_plus_slg
    [some [("atBats", .int 20), ("hits", .int 6), ("baseOnBalls", .int 3),
           ("totalBases", .int 10)]]
    ⟨20, 6, 0, 0, 3, 0, 10⟩ (by decide) (by decide) (by decide) (by decide) (by decide)
    (by decide)).1
